import Mathlib

/-!
Shallow embedding of the tsjetdb JET database reader core (jetdb.ts).

Buffers are lists of byte values (each below 256 in any real buffer);
multi-byte integers are little-endian, as in the source.  JS strings are
modelled as lists of UTF-16 code units.  Node buffers are zero-filled on
allocation, so out-of-range reads of a page buffer are modelled with
default value 0; the degenerate cases where Node would instead raise a
range error are outside every claim considered here.
-/

set_option maxRecDepth 8192

/-- A JS string, as its list of UTF-16 code units. -/
abbrev JStr := List Nat

/-- Code units of an ASCII Lean string literal, used for JS string literals. -/
def jsStr (s : String) : JStr := s.toList.map Char.toNat

/-- enum Version from jetdb.ts: JETDB3 = 0 (spec "version 3"), JETDB4 = 1 (spec "version 4"). -/
inductive Version where
  | JETDB3
  | JETDB4
deriving DecidableEq

/-- type DatabaseConfig = { pageSize, version }. -/
structure DatabaseConfig where
  pageSize : Nat
  version : Version
deriving DecidableEq

/-- Error kinds surfaced by the reader.  unknownVersion carries the value the
source embeds in its message (the result of Buffer.readInt8, hence an Int).
assertFailed models a binary-parser assert throwing; undefinedProperty models
a JS TypeError from reading a property of undefined.  unknownTable is
modelled from the spec (error kind 6); the source never constructs it. -/
inductive JetErr where
  | unknownVersion (v : Int)
  | assertFailed
  | undefinedProperty
  | unknownTable (name : JStr)
deriving DecidableEq

/-- type TdefColumn (the fields consumed by the row decoder). -/
structure TdefColumn where
  type : Nat
  number : Nat
  offsetF : Nat
  offsetV : Nat
  length : Nat
  bitmask : Nat
deriving DecidableEq

/-- type TdefColumnName; only the name field is consumed after parsing. -/
structure TdefColumnName where
  name : JStr
deriving DecidableEq

/-- type Tdef (the fields consumed by the facade and row decoder). -/
structure Tdef where
  numRows : Nat
  cols : List TdefColumn
  colNames : List TdefColumnName
  usedPagesPage : Nat
deriving DecidableEq

/-- type ColumnValue = number | bigint | string | Date | null.  The number
produced by readDoubleLE (column type 7) is kept as its raw 64-bit pattern
(constructor float); no claim depends on floating-point arithmetic.  Date is
never produced by the source. -/
inductive ColumnValue where
  | null
  | num (n : Nat)
  | float (bits : Nat)
  | bigint (n : Nat)
  | str (s : JStr)
deriving DecidableEq

/-- type ColumnData. -/
structure ColumnData where
  position : Nat
  rawValue : List Nat
  type : Nat
  name : JStr
  value : ColumnValue
  isNull : Bool
deriving DecidableEq

/-- type Row. -/
structure Row where
  number : Nat
  columns : List ColumnData
deriving DecidableEq

/-- type RowOffset.  The source stores lookupFlag as the raw masked number
and delFlag as a boolean. -/
structure RowOffset where
  lookupFlag : Nat
  delFlag : Bool
  offset : Nat
  next : Nat
deriving DecidableEq

/-- Buffer.readUint8: byte at position p (0 on a zero-filled page past data). -/
def readU8 (buf : List Nat) (p : Nat) : Nat := buf.getD p 0

/-- Buffer.readUint16LE. -/
def readU16LE (buf : List Nat) (p : Nat) : Nat := readU8 buf p + 256 * readU8 buf (p + 1)

/-- Buffer.readUint32LE. -/
def readU32LE (buf : List Nat) (p : Nat) : Nat := readU16LE buf p + 65536 * readU16LE buf (p + 2)

/-- Buffer.readBigUInt64LE (also the raw pattern readDoubleLE reinterprets). -/
def readU64LE (buf : List Nat) (p : Nat) : Nat := readU32LE buf p + 4294967296 * readU32LE buf (p + 4)

/-- The eight bits of a byte, least significant first, as binary-parser
delivers bit1 fields under little endianness. -/
def byteBits (b : Nat) : List Nat := (List.range 8).map (fun k => b >>> k &&& 1)

/-- Buffer.readInt8: two's-complement reading of a byte value. -/
def toInt8 (b : Nat) : Int := if b < 128 then (b : Int) else (b : Int) - 256

/-- JS ToInt32, applied by JS before a signed shift. -/
def toInt32 (n : Nat) : Int :=
  if n % 4294967296 < 2147483648 then ((n % 4294967296 : Nat) : Int)
  else ((n % 4294967296 : Nat) : Int) - 4294967296

/-- The JS signed right shift a >> k on an unsigned 32-bit input: ToInt32
followed by an arithmetic shift, i.e. flooring division by 2 ^ k. -/
def jsShr32 (a k : Nat) : Int := Int.fdiv (toInt32 a) (2 ^ k)

/-- Buffer.subarray(start, start + len): empty when len is not positive,
clamped to the end of the buffer otherwise. -/
def jsSubarray (buf : List Nat) (start : Nat) (len : Int) : List Nat :=
  if len ≤ 0 then [] else (buf.drop start).take len.toNat

/-- BufferReader.readBuffer as an abstract page source: size and position to
bytes.  The position is an Int because the memo path computes it with the JS
signed shift. -/
abbrev PageReader := Nat → Int → List Nat

deriving instance DecidableEq for Except

example : readU16LE [1, 2] 0 = 513 := by decide
example : toInt8 255 = -1 := by decide
example : jsShr32 1280 8 = 5 := by decide
example : byteBits 3 = [1, 1, 0, 0, 0, 0, 0, 0] := by decide

namespace JetDb

/-- JetDb.databaseConfig: switch on Buffer.readInt8 of byte 0x14 of the
2048-byte header buffer.  Case 0 (Version.JETDB3) gives pageSize 2048, case
1 (Version.JETDB4) gives pageSize 4096, anything else throws Unknown
database version v with v the signed reading. -/
def databaseConfig (buf : List Nat) : Except JetErr DatabaseConfig :=
  if toInt8 (buf.getD 0x14 0) = 0 then .ok { pageSize := 2048, version := .JETDB3 }
  else if toInt8 (buf.getD 0x14 0) = 1 then .ok { pageSize := 4096, version := .JETDB4 }
  else .error (.unknownVersion (toInt8 (buf.getD 0x14 0)))

/-- The while loop of JetDb.decompressUnicode, returning the bytes written
from the current state on.  First argument of the recursion is slen (each
iteration lowers it by 1 or 2); pos indexes src, tlen counts bytes written so
far against the budget dlen, compress is the toggled flag.  A JS detail kept
here: the test src[pos] == 0x00 is false when pos is past the end of src
(undefined), but a write dst[tlen] = src[pos] of undefined stores 0, hence
the get? test and the getD 0 emission. -/
def decompressLoop (src : List Nat) (dlen : Nat) : Nat → Nat → Nat → Bool → List Nat
  | 0, _, _, _ => []
  | slen + 1, pos, tlen, compress =>
    if tlen < dlen then
      if src.get? pos = some 0 then
        decompressLoop src dlen slen (pos + 1) tlen (!compress)
      else if compress then
        src.getD pos 0 :: 0 :: decompressLoop src dlen slen (pos + 1) (tlen + 2) compress
      else
        match slen with
        | s + 1 => src.getD pos 0 :: src.getD (pos + 1) 0 ::
            decompressLoop src dlen s (pos + 2) (tlen + 2) compress
        | 0 => []
    else []

/-- JetDb.decompressUnicode(src, slen, dlen): compress flag starts at 1, the
destination is allocated with slen * 2 bytes (writes past it are dropped, as
in a JS typed array) and the written prefix is returned. -/
def decompressUnicode (src : List Nat) (slen dlen : Nat) : List Nat :=
  (decompressLoop src dlen slen 0 0 true).take (slen * 2)

/-- Buffer.toString with encoding utf16le: consecutive little-endian byte
pairs become code units; a trailing lone byte is discarded by Node. -/
def utf16le : List Nat → List Nat
  | b0 :: b1 :: rest => (b0 + 256 * b1) :: utf16le rest
  | _ => []

/-- Buffer.toString with encoding latin1: each byte is the code unit of the
same value. -/
def latin1 (buf : List Nat) : List Nat := buf

/-- JetDb.parseText on the final text buffer: latin1 for JETDB3; for JETDB4
a leading 0xFF 0xFE marks the compressed form, which is decompressed with
slen = remaining length and dlen = slen * 2, then read as UTF-16LE; without
the mark the buffer is read as UTF-16LE directly. -/
def parseText (cfg : DatabaseConfig) (buffer : List Nat) : JStr :=
  if cfg.version = Version.JETDB3 then
    latin1 buffer
  else
    if buffer.getD 0 0 = 0xff ∧ buffer.getD 1 0 = 0xfe then
      let slen := buffer.length - 2
      utf16le (decompressUnicode (buffer.drop 2) slen (slen * 2))
    else
      utf16le buffer

/-- Position of the u16 numRows field of a data page: after page code, one
skipped byte, u16 freeSpaceInPage and u32 tdefPage come 4 further skipped
bytes for JETDB4 only. -/
def dataPageBase (cfg : DatabaseConfig) : Nat :=
  if cfg.version = Version.JETDB3 then 8 else 12

/-- The u16 numRows field of a data page. -/
def dataPageNumRows (cfg : DatabaseConfig) (buffer : List Nat) : Nat :=
  readU16LE buffer (dataPageBase cfg)

/-- Raw u16 slot word i of the row-offset table of a data page. -/
def rawSlotWord (cfg : DatabaseConfig) (buffer : List Nat) (i : Nat) : Nat :=
  readU16LE buffer (dataPageBase cfg + 2 + 2 * i)

/-- JetDb.parseOffsets: asserts page code 0x01, then reads the header fields
up to u16 numRows and the numRows raw u16 slot words.  Word idx decodes to
offset = raw & 0x1fff, delFlag = (raw & 0x4000) != 0, lookupFlag =
raw & 0x8000, and next = pageSize for idx 0 and previous raw & 0x1fff
otherwise. -/
def parseOffsets (cfg : DatabaseConfig) (buffer : List Nat) : Option (List RowOffset) :=
  if buffer.getD 0 0 = 1 then
    some ((List.range (dataPageNumRows cfg buffer)).map (fun idx =>
      let os := rawSlotWord cfg buffer idx
      { lookupFlag := os &&& 0x8000
        delFlag := decide (os &&& 0x4000 ≠ 0)
        offset := os &&& 0x1fff
        next := if idx = 0 then cfg.pageSize
                else rawSlotWord cfg buffer (idx - 1) &&& 0x1fff }))
  else none

/-- The list of decoded column types: 1 bool, 2 byte, 3 int, 4 longint,
7 double, 8 datetime, 10 text, 12 memo.  Every other type code falls to the
default switch branch. -/
def decodedTypes : List Nat := [1, 2, 3, 4, 7, 8, 10, 12]

/-- JetDb.parseColumn: per-type value extraction from buffer at start with
the given slice length.  The memo branch (type 12) re-enters parseOffsets on
the fetched page; a failed page-code assert or a missing slot surfaces as an
error, as the JS exceptions would.  The source locals memoLen (u16 at +0
plus u8 at +2), memoMask (u8 at +3), tmp (u32 at +4), memoPage (tmp >> 8,
the JS signed shift) and memoRow (tmp & 0xff) are inlined here. -/
def parseColumn (cfg : DatabaseConfig) (reader : PageReader) (buffer : List Nat)
    (column : TdefColumn) (start length : Nat) : Except JetErr ColumnValue :=
  if column.type = 1 then
    .ok (.num (if readU8 buffer start ≠ 0 then 1 else 0))
  else if column.type = 2 then
    .ok (.num (readU8 buffer start))
  else if column.type = 3 then
    .ok (.num (readU16LE buffer start))
  else if column.type = 4 then
    .ok (.num (readU32LE buffer start))
  else if column.type = 7 then
    .ok (.float (readU64LE buffer start))
  else if column.type = 8 then
    .ok (.bigint (readU64LE buffer start))
  else if column.type = 10 then
    .ok (.str (parseText cfg ((buffer.drop start).take length)))
  else if column.type = 12 then
    if readU8 buffer (start + 3) = 0x80 then
      .ok (.str (parseText cfg ((buffer.drop (start + 12)).take
        (readU16LE buffer start + readU8 buffer (start + 2)))))
    else if readU8 buffer (start + 3) = 0x40 then
      match parseOffsets cfg (reader cfg.pageSize (jsShr32 (readU32LE buffer (start + 4)) 8)) with
      | none => .error .assertFailed
      | some offsets =>
        match offsets.get? (readU32LE buffer (start + 4) &&& 0xff) with
        | none => .error .undefinedProperty
        | some slot =>
          .ok (.str (parseText cfg
            (((reader cfg.pageSize (jsShr32 (readU32LE buffer (start + 4)) 8)).drop
              slot.offset).take (slot.next - slot.offset))))
    else if readU8 buffer (start + 3) = 0x00 then
      .ok (.str (jsStr "[unknown type]"))
    else
      .ok (.str (jsStr "[unknown type]"))
  else
    .ok (.str (jsStr "[unknown type]"))

/-- The start and length a row slot assigns to one column inside
readRowsForPage: fixed layout (bitmask bit 0 set) is offset + offsetF +
varLenSize with the declared length; variable layout starts at offset +
varOffsets[offsetV] and spans to varOffsets[offsetV + 1] when that index
exists, length 0 otherwise (the JS in test on the array).  The length is an
Int because the JS subtraction can go negative on a malformed table. -/
def columnStartLen (offset : RowOffset) (varLenSize : Nat) (varOffsets : List Nat)
    (column : TdefColumn) : Nat × Int :=
  if column.bitmask &&& 0x01 = 1 then
    (offset.offset + column.offsetF + varLenSize, (column.length : Int))
  else
    (offset.offset + varOffsets.getD column.offsetV 0,
     if column.offsetV + 1 < varOffsets.length then
       (varOffsets.getD (column.offsetV + 1) 0 : Int) - (varOffsets.getD column.offsetV 0 : Int)
     else 0)

/-- Whether the null mask marks the column as null: bit (indexed by the
column number field) equal to 0.  A JS detail kept here: when the index is
past the mask, nullMask[n] is undefined and undefined == 0 is false, so the
column counts as not null; hence the default 1. -/
def nullBitClear (nullMask : List Nat) (n : Nat) : Bool :=
  decide ((nullMask.get? n).getD 1 = 0)

/-- The body of the per-column forEach in JetDb.readRowsForPage: compute the
slice, preset the value to null or the empty string by the null bit, decode
through parseColumn when the length is positive, and record position, raw
slice, type, name, value and isNull. -/
def decodeColumnData (cfg : DatabaseConfig) (reader : PageReader) (buffer : List Nat)
    (offset : RowOffset) (varLenSize : Nat) (varOffsets nullMask : List Nat)
    (column : TdefColumn) (name : JStr) : Except JetErr ColumnData :=
  let sl := columnStartLen offset varLenSize varOffsets column
  let preset : ColumnValue := if nullBitClear nullMask column.number then .null else .str []
  if sl.2 > 0 then do
    let v ← parseColumn cfg reader buffer column sl.1 sl.2.toNat
    .ok { position := column.number, rawValue := jsSubarray buffer sl.1 sl.2,
          type := column.type, name := name, value := v,
          isNull := nullBitClear nullMask column.number }
  else
    .ok { position := column.number, rawValue := jsSubarray buffer sl.1 sl.2,
          type := column.type, name := name, value := preset,
          isNull := nullBitClear nullMask column.number }

/-- The per-column forEach over the schema columns paired with their names. -/
def decodeColumns (cfg : DatabaseConfig) (reader : PageReader) (buffer : List Nat)
    (offset : RowOffset) (varLenSize : Nat) (varOffsets nullMask : List Nat) :
    List (TdefColumn × JStr) → Except JetErr (List ColumnData)
  | [] => .ok []
  | (column, name) :: rest => do
    let d ← decodeColumnData cfg reader buffer offset varLenSize varOffsets nullMask column name
    let ds ← decodeColumns cfg reader buffer offset varLenSize varOffsets nullMask rest
    .ok (d :: ds)

/-- One row slot of JetDb.readRowsForPage: read columnsInRow at the slot
offset (u8 for JETDB3, u16 for JETDB4), derive the null-mask size, read the
count varLen just before the mask, read the varLen reversed variable-offset
entries plus the extra trailing end entry, read the null-mask bits, then
decode every schema column.  The schema columns are paired with their names
positionally, as the forEach index does. -/
def decodeRow (cfg : DatabaseConfig) (reader : PageReader) (buffer : List Nat)
    (schema : Tdef) (offset : RowOffset) : Except JetErr (List ColumnData) :=
  let js3 := cfg.version = Version.JETDB3
  let columnsInRow := if js3 then readU8 buffer offset.offset else readU16LE buffer offset.offset
  let varLenSize := if js3 then 1 else 2
  let nullMaskSize := (columnsInRow + 7) / 8
  let varLen := if js3 then readU8 buffer (offset.next - varLenSize - nullMaskSize)
                else readU16LE buffer (offset.next - varLenSize - nullMaskSize)
  let tableBase := offset.next - varLenSize - nullMaskSize - varLen * varLenSize
  let readEntry := fun p => if js3 then readU8 buffer p else readU16LE buffer p
  let varOffsets :=
    ((List.range varLen).map (fun j => readEntry (tableBase + j * varLenSize))).reverse ++
      [readEntry (offset.next - varLenSize - nullMaskSize - varLenSize * varLen - varLenSize)]
  let nullMask :=
    ((List.range nullMaskSize).map (fun j => buffer.getD (offset.next - nullMaskSize + j) 0)).flatMap
      byteBits
  decodeColumns cfg reader buffer offset varLenSize varOffsets nullMask
    (schema.cols.zip (schema.colNames.map (·.name)))

/-- The forEach over the non-deleted slots, numbering rows by their index in
the filtered list. -/
def decodeRows (cfg : DatabaseConfig) (reader : PageReader) (buffer : List Nat)
    (schema : Tdef) : List RowOffset → Nat → Except JetErr (List Row)
  | [], _ => .ok []
  | offset :: rest, idx => do
    let cols ← decodeRow cfg reader buffer schema offset
    let more ← decodeRows cfg reader buffer schema rest (idx + 1)
    .ok ({ number := idx, columns := cols } :: more)

/-- JetDb.readRowsForPage: parse the slot-offset table (page-code assert
included), drop the slots whose delFlag is set, and decode the remaining
slots in order. -/
def readRowsForPage (cfg : DatabaseConfig) (reader : PageReader) (buffer : List Nat)
    (schema : Tdef) : Except JetErr (List Row) :=
  match parseOffsets cfg buffer with
  | none => .error .assertFailed
  | some offsets => decodeRows cfg reader buffer schema (offsets.filter (fun o => !o.delFlag)) 0

/-- The bit walk of JetDb.readPageBitmap: a counter starts at pageStart and
advances per bit; positions whose bit is 1 are collected. -/
def collectBits (pageStart : Nat) : List Nat → List Nat
  | [] => []
  | bit :: rest =>
    if bit = 1 then pageStart :: collectBits (pageStart + 1) rest
    else collectBits (pageStart + 1) rest

/-- JetDb.readPageBitmap: the buffer as bits, least significant first within
each byte, collected from pageStart. -/
def readPageBitmap (buf : List Nat) (pageStart : Nat) : List Nat :=
  collectBits pageStart (buf.flatMap byteBits)

/-- The loop over the page-number entries of a paged (mapType 1) used-pages
map: entry idx covers (pageSize - 4) * 8 pages; zero entries are skipped,
others are fetched and their bitmap (after a 4-byte page header) collected. -/
def pagedMapLoop (cfg : DatabaseConfig) (reader : PageReader) (pagesInPage : Nat) :
    List Nat → Nat → List Nat
  | [], _ => []
  | pageNumber :: rest, idx =>
    (if pageNumber > 0 then
      readPageBitmap ((reader cfg.pageSize pageNumber).drop 4) (idx * pagesInPage)
    else []) ++ pagedMapLoop cfg reader pagesInPage rest (idx + 1)

/-- JetDb.parseUsedPagesMap: skip 10 (JETDB3) or 14 (JETDB4) bytes, read u16
firstPageApplies, seek so that mapType is the byte at position
firstPageApplies, and treat the rest as the map body.  mapType 1 is the
paged encoding; anything else is the inline encoding with a u32 pageStart
followed by the bitmap. -/
def parseUsedPagesMap (cfg : DatabaseConfig) (reader : PageReader) (buf : List Nat) :
    List Nat :=
  let skip := if cfg.version = Version.JETDB3 then 10 else 14
  let firstPageApplies := readU16LE buf skip
  let mapType := readU8 buf firstPageApplies
  let body := buf.drop (firstPageApplies + 1)
  if mapType = 1 then
    let pages := (List.range (body.length / 4)).map (fun i => readU32LE body (4 * i))
    pagedMapLoop cfg reader ((cfg.pageSize - 4) * 8) pages 0
  else
    readPageBitmap (body.drop 4) (readU32LE body 0)

/-- JetDb.readRows: fetch each page of the used-pages map and concatenate
the decoded rows. -/
def readRows (cfg : DatabaseConfig) (reader : PageReader) (schema : Tdef) :
    List Nat → Except JetErr (List Row)
  | [] => .ok []
  | pageNumber :: rest => do
    let rows ← readRowsForPage cfg reader (reader cfg.pageSize pageNumber) schema
    let more ← readRows cfg reader schema rest
    .ok (rows ++ more)

/-- The in-memory state of an open JetDb handle after init: the catalog user
rows and the parsed schema of each user table, in discovery order. -/
structure State where
  config : DatabaseConfig
  userTables : List Row
  schema : List Tdef
deriving DecidableEq

/-- The findIndex over userTables shared by columns and rows: the row whose
Name column value equals the requested table name. -/
def findTableIndex (st : State) (table : JStr) : Option Nat :=
  st.userTables.findIdx? (fun r =>
    decide (((r.columns.find? (fun c => c.name = jsStr "Name")).map (·.value)) =
      some (.str table)))

/-- JetDb.columns(table): the column names of schema[tableIndex].  When
findIndex misses, tableIndex is -1 and schema[-1].colNames is a property
read on undefined, a JS TypeError. -/
def columns (st : State) (table : JStr) : Except JetErr (List JStr) :=
  match findTableIndex st table with
  | none => .error .undefinedProperty
  | some i =>
    match st.schema.get? i with
    | none => .error .undefinedProperty
    | some td => .ok (td.colNames.map (·.name))

/-- JetDb.rows(table): read schema[tableIndex].usedPagesPage (the same
TypeError when findIndex misses), parse the used-pages map and decode the
rows of every page. -/
def rows (st : State) (reader : PageReader) (table : JStr) : Except JetErr (List Row) :=
  match findTableIndex st table with
  | none => .error .undefinedProperty
  | some i =>
    match st.schema.get? i with
    | none => .error .undefinedProperty
    | some td =>
      readRows st.config reader td
        (parseUsedPagesMap st.config reader (reader st.config.pageSize td.usedPagesPage))

end JetDb

example : JetDb.databaseConfig (List.replicate 20 0 ++ [1]) =
    .ok { pageSize := 4096, version := .JETDB4 } := by decide
example : JetDb.decompressUnicode [97, 98] 2 4 = [97, 0, 98, 0] := by decide
example : JetDb.decompressUnicode [97, 0, 98, 99] 4 8 = [97, 0, 98, 99] := by decide
example : JetDb.parseText { pageSize := 4096, version := .JETDB4 } [255, 254, 104, 105] =
    [104, 105] := by decide
example : JetDb.parseOffsets { pageSize := 4096, version := .JETDB4 }
      [1, 0, 0, 0, 0, 0, 0, 0, 0, 0, 0, 0, 2, 0, 30, 64, 16, 0] =
    some [{ lookupFlag := 0, delFlag := true, offset := 30, next := 4096 },
          { lookupFlag := 0, delFlag := false, offset := 16, next := 30 }] := by decide

/-- A JETDB4 configuration with page size 64, used for concrete checks. -/
def cfg64 : DatabaseConfig := { pageSize := 64, version := .JETDB4 }

/-- The full-size JETDB4 configuration databaseConfig returns for header
byte 0x01. -/
def cfg4 : DatabaseConfig := { pageSize := 4096, version := .JETDB4 }

/-- A page reader that returns the empty buffer everywhere. -/
def rdr0 : PageReader := fun _ _ => []

/-- A concrete 64-byte JETDB4 data page with one slot at [20, 64): two
columns in the row, one variable entry with table [4] and end entry 7, and
null mask byte 3 marking both columns present. -/
def testPage : List Nat :=
  [1] ++ List.replicate 11 0 ++ [1, 0] ++ [20, 0] ++ [0, 0, 0, 0] ++
    [2, 0] ++ [5, 1] ++ [104, 0, 105] ++ List.replicate 30 0 ++
    [7, 0] ++ [4, 0] ++ [1, 0] ++ [3]

/-- A two-column schema for testPage: a fixed u16 column and a variable
text column. -/
def testSchema : Tdef :=
  { numRows := 1
    cols := [{ type := 3, number := 0, offsetF := 0, offsetV := 0, length := 2, bitmask := 1 },
             { type := 10, number := 1, offsetF := 0, offsetV := 0, length := 0, bitmask := 0 }]
    colNames := [{ name := jsStr "A" }, { name := jsStr "B" }]
    usedPagesPage := 0 }

example : JetDb.readRowsForPage cfg64 rdr0 testPage testSchema =
    .ok [{ number := 0
           columns := [{ position := 0, rawValue := [5, 1], type := 3, name := jsStr "A",
                         value := .num 261, isNull := false },
                       { position := 1, rawValue := [104, 0, 105], type := 10, name := jsStr "B",
                         value := .str [104], isNull := false }] }] := by decide

/-- The expected output of the codec on all-nonzero input under the initial
flag: every byte followed by a 0x00 high byte. -/
def interleave0 : List Nat → List Nat
  | [] => []
  | b :: rest => b :: 0 :: interleave0 rest

/-- A concrete JETDB4 data page with a deleted slot 0 and a live slot 1,
used as witness input. -/
def pageW : List Nat := [1, 0, 0, 0, 0, 0, 0, 0, 0, 0, 0, 0, 2, 0, 30, 64, 16, 0]

/-- The slot records parseOffsets derives from pageW. -/
def offsW : List RowOffset :=
  [{ lookupFlag := 0, delFlag := true, offset := 30, next := 4096 },
   { lookupFlag := 0, delFlag := false, offset := 16, next := 30 }]

/-- A money column (type 5), undecoded by the source. -/
def col5 : TdefColumn :=
  { type := 5, number := 7, offsetF := 0, offsetV := 0, length := 8, bitmask := 1 }

/-- A 20-byte LVAL data page: one slot with offset 18, whose bytes decode
as the single code unit 104. -/
def memoPageW : List Nat :=
  [1] ++ List.replicate 11 0 ++ [1, 0] ++ [18, 0] ++ [0, 0] ++ [104, 0]

/-- A page reader serving memoPageW as page 5. -/
def rdrW : PageReader := fun _ p => if p = 5 then memoPageW else []

/-- A memo column slice: 24-bit length 5, mask 0x40 (out of line), u32
0x00000500, so memoPage 5 and memoRow 0. -/
def memoColBuf : List Nat := [5, 0, 0, 0x40, 0, 5, 0, 0]

/-- A memo (type 12) column descriptor. -/
def colMemo : TdefColumn :=
  { type := 12, number := 0, offsetF := 0, offsetV := 0, length := 0, bitmask := 0 }

/-- A handle state holding one user table named T and no parsed schema. -/
def stW : JetDb.State :=
  { config := cfg4
    userTables := [{ number := 0
                     columns := [{ position := 0, rawValue := [], type := 10,
                                   name := jsStr "Name", value := .str (jsStr "T"),
                                   isNull := false }] }]
    schema := [] }

/-- Claim C1 (amended): opening reads the byte at offset 0x14 of the header
buffer; 0x00 yields version JETDB3 with pageSize 2048, 0x01 yields JETDB4
with pageSize 4096, and any other byte value fails with UnknownVersion
carrying the signed two's-complement reading of the byte (the source uses
Buffer.readInt8), i.e. the byte value itself below 128 and the value minus
256 otherwise. -/
theorem c1_version_detection (buf : List Nat) (b : Nat) (hb : buf.getD 0x14 0 = b) :
    (b = 0 → JetDb.databaseConfig buf = .ok { pageSize := 2048, version := Version.JETDB3 }) ∧
    (b = 1 → JetDb.databaseConfig buf = .ok { pageSize := 4096, version := Version.JETDB4 }) ∧
    (b < 256 → b ≠ 0 → b ≠ 1 →
      JetDb.databaseConfig buf = .error (.unknownVersion (toInt8 b))) := by
  refine ⟨fun h0 => ?_, fun h1 => ?_, fun hlt h0 h1 => ?_⟩
  · unfold JetDb.databaseConfig
    rw [hb, h0]
    decide
  · unfold JetDb.databaseConfig
    rw [hb, h1]
    decide
  · have ht : toInt8 b ≠ 0 ∧ toInt8 b ≠ 1 := by
      unfold toInt8
      split <;> constructor <;> omega
    unfold JetDb.databaseConfig
    rw [hb, if_neg ht.1, if_neg ht.2]

/-- Witness for c1_version_detection: header byte 0xC8 = 200 fails with the
signed value -56. -/
theorem c1_version_detection_witness :
    JetDb.databaseConfig (List.replicate 20 0 ++ [200]) =
      .error (.unknownVersion (toInt8 200)) ∧ toInt8 200 = -56 := by
  have h := c1_version_detection (List.replicate 20 0 ++ [200]) 200 (by decide)
  exact ⟨h.2.2 (by decide) (by decide) (by decide), by decide⟩

/-- Counterexample to claim C1 as stated: for header byte value 255 the
error carries -1 (the signed reading), not the byte value 255. -/
theorem c1_counterexample :
    JetDb.databaseConfig (List.replicate 20 0 ++ [255]) = .error (.unknownVersion (-1)) ∧
    (Except.error (JetErr.unknownVersion (-1)) : Except JetErr DatabaseConfig) ≠
      .error (.unknownVersion 255) := by
  exact ⟨by decide, by decide⟩

/-- List.getD agrees with a successful get?. -/
lemma getD_of_get_eq {l : List Nat} {n b : Nat} (h : l.get? n = some b) :
    l.getD n 0 = b := by
  simp [List.getD_eq_getElem?_getD, ← List.get?_eq_getElem?, h]

/-- Unfolding equation of the decompression loop at slen = 0. -/
lemma decompressLoop_zero (src : List Nat) (dlen pos tlen : Nat) (compress : Bool) :
    JetDb.decompressLoop src dlen 0 pos tlen compress = [] := by
  rw [JetDb.decompressLoop.eq_def]

/-- Unfolding equation of the decompression loop at slen = s + 1. -/
lemma decompressLoop_succ (src : List Nat) (dlen s pos tlen : Nat) (compress : Bool) :
    JetDb.decompressLoop src dlen (s + 1) pos tlen compress =
      (if tlen < dlen then
        if src.get? pos = some 0 then
          JetDb.decompressLoop src dlen s (pos + 1) tlen (!compress)
        else if compress then
          src.getD pos 0 :: 0 :: JetDb.decompressLoop src dlen s (pos + 1) (tlen + 2) compress
        else
          match s with
          | s' + 1 => src.getD pos 0 :: src.getD (pos + 1) 0 ::
              JetDb.decompressLoop src dlen s' (pos + 2) (tlen + 2) compress
          | 0 => []
      else []) := by
  rw [JetDb.decompressLoop.eq_def]

/-- The decompression loop writes at most dlen - tlen further bytes and
always an even number, provided tlen and dlen are even. -/
lemma decompressLoop_length (src : List Nat) (dlen : Nat) :
    ∀ slen pos tlen compress, 2 ∣ tlen → 2 ∣ dlen →
      (JetDb.decompressLoop src dlen slen pos tlen compress).length ≤ dlen - tlen ∧
      2 ∣ (JetDb.decompressLoop src dlen slen pos tlen compress).length := by
  intro slen
  induction slen using Nat.strong_induction_on with
  | _ slen ih =>
    intro pos tlen compress ht hd
    match slen with
    | 0 => simp [decompressLoop_zero]
    | s + 1 =>
      rw [decompressLoop_succ]
      split
      case isTrue hlt =>
        split
        case isTrue h0 =>
          exact ih s (by omega) (pos + 1) tlen (!compress) ht hd
        case isFalse h0 =>
          split
          case isTrue hc =>
            have hrec := ih s (by omega) (pos + 1) (tlen + 2) compress (by omega) hd
            simp only [List.length_cons]
            omega
          case isFalse hc =>
            match s with
            | 0 => simp
            | s' + 1 =>
              have hrec := ih s' (by omega) (pos + 2) (tlen + 2) compress (by omega) hd
              simp only [List.length_cons]
              omega
      case isFalse hlt => simp

/-- Claim C4 (confirmed): the Unicode decompressor, with budget
dlen = 2 * slen and the flag initially on, follows exactly these steps: a
0x00 byte toggles the flag consuming 1 byte and emitting nothing; otherwise
with the flag on byte b emits (b, 0x00) consuming 1 byte; otherwise with at
least 2 bytes remaining both are emitted verbatim; otherwise it stops; and
it stops when the input count is exhausted or dlen bytes are emitted (the
first conjunct shows the allocated destination never truncates the output
at this budget). -/
theorem c4_codec_steps (src : List Nat) :
    (∀ slen, JetDb.decompressUnicode src slen (2 * slen) =
      JetDb.decompressLoop src (2 * slen) slen 0 0 true) ∧
    (∀ dlen slen pos tlen compress, dlen ≤ tlen →
      JetDb.decompressLoop src dlen slen pos tlen compress = []) ∧
    (∀ dlen pos tlen compress, JetDb.decompressLoop src dlen 0 pos tlen compress = []) ∧
    (∀ dlen slen pos tlen compress, tlen < dlen → src.get? pos = some 0 →
      JetDb.decompressLoop src dlen (slen + 1) pos tlen compress =
        JetDb.decompressLoop src dlen slen (pos + 1) tlen (!compress)) ∧
    (∀ dlen slen pos tlen b, tlen < dlen → src.get? pos = some b → b ≠ 0 →
      JetDb.decompressLoop src dlen (slen + 1) pos tlen true =
        b :: 0 :: JetDb.decompressLoop src dlen slen (pos + 1) (tlen + 2) true) ∧
    (∀ dlen slen pos tlen b b2, tlen < dlen → src.get? pos = some b → b ≠ 0 →
      src.get? (pos + 1) = some b2 →
      JetDb.decompressLoop src dlen (slen + 2) pos tlen false =
        b :: b2 :: JetDb.decompressLoop src dlen slen (pos + 2) (tlen + 2) false) ∧
    (∀ dlen pos tlen b, tlen < dlen → src.get? pos = some b → b ≠ 0 →
      JetDb.decompressLoop src dlen 1 pos tlen false = []) := by
  refine ⟨?_, ?_, ?_, ?_, ?_, ?_, ?_⟩
  · intro slen
    unfold JetDb.decompressUnicode
    apply List.take_of_length_le
    have hl := decompressLoop_length src (2 * slen) slen 0 0 true ⟨0, rfl⟩ ⟨slen, rfl⟩
    omega
  · intro dlen slen pos tlen compress hge
    cases slen with
    | zero => exact decompressLoop_zero src dlen pos tlen compress
    | succ s => rw [decompressLoop_succ, if_neg (by omega)]
  · intro dlen pos tlen compress
    exact decompressLoop_zero src dlen pos tlen compress
  · intro dlen slen pos tlen compress hlt h0
    rw [decompressLoop_succ, if_pos hlt, if_pos h0]
  · intro dlen slen pos tlen b hlt hb hbne
    have hne : ¬ (src.get? pos = some 0) := by rw [hb]; simp [hbne]
    rw [decompressLoop_succ, if_pos hlt, if_neg hne, getD_of_get_eq hb]
    simp
  · intro dlen slen pos tlen b b2 hlt hb hbne hb2
    have hne : ¬ (src.get? pos = some 0) := by rw [hb]; simp [hbne]
    rw [decompressLoop_succ, if_pos hlt, if_neg hne, getD_of_get_eq hb, getD_of_get_eq hb2]
    simp
  · intro dlen pos tlen b hlt hb hbne
    have hne : ¬ (src.get? pos = some 0) := by rw [hb]; simp [hbne]
    rw [decompressLoop_succ, if_pos hlt, if_neg hne]
    simp

/-- Witness for c4_codec_steps: on source [0, 7] the first byte toggles the
flag and the budget equation holds at slen = 2. -/
theorem c4_codec_steps_witness :
    JetDb.decompressUnicode [0, 7] 2 4 = JetDb.decompressLoop [0, 7] 4 2 0 0 true ∧
    JetDb.decompressLoop [0, 7] 4 2 0 0 true = JetDb.decompressLoop [0, 7] 4 1 1 0 false := by
  have h := c4_codec_steps [0, 7]
  refine ⟨h.1 2, ?_⟩
  have h4 := h.2.2.2.1 4 1 0 0 true (by decide) (by decide)
  simpa using h4

/-- Claim C10 (confirmed): with budget dlen = 2 * slen the decompressor
always returns an even number of bytes, at most 2 * slen (the Lean function
is total, so termination is by construction). -/
theorem c10_decompress_safety (src : List Nat) (slen : Nat) (_hs : slen ≤ src.length) :
    (JetDb.decompressUnicode src slen (2 * slen)).length % 2 = 0 ∧
    (JetDb.decompressUnicode src slen (2 * slen)).length ≤ 2 * slen := by
  have hl := decompressLoop_length src (2 * slen) slen 0 0 true ⟨0, rfl⟩ ⟨slen, rfl⟩
  unfold JetDb.decompressUnicode
  rw [List.take_of_length_le (by omega)]
  omega

/-- Witness for c10_decompress_safety: a source whose trailing lone byte in
uncompressed mode is dropped still yields an even length within budget. -/
theorem c10_decompress_safety_witness :
    (JetDb.decompressUnicode [97, 0, 98] 3 6).length % 2 = 0 ∧
    (JetDb.decompressUnicode [97, 0, 98] 3 6).length ≤ 6 ∧
    JetDb.decompressUnicode [97, 0, 98] 3 6 = [97, 0] := by
  have h := c10_decompress_safety [97, 0, 98] 3 (by decide)
  exact ⟨h.1, h.2, by decide⟩

lemma interleave0_length (s : List Nat) : (interleave0 s).length = 2 * s.length := by
  induction s with
  | nil => rfl
  | cons b rest ih => simp [interleave0, ih]; omega

lemma utf16le_interleave0 (s : List Nat) : JetDb.utf16le (interleave0 s) = s := by
  induction s with
  | nil => rfl
  | cons b rest ih => simp [interleave0, JetDb.utf16le, ih]

/-- On input whose next s.length entries are the nonzero bytes of s, with
room in the budget, the loop emits exactly the interleaved form of s. -/
lemma decompressLoop_ascii (src : List Nat) (dlen : Nat) :
    ∀ (s : List Nat) (pos tlen : Nat),
      (∀ i (hi : i < s.length), src.get? (pos + i) = some (s.get ⟨i, hi⟩)) →
      (∀ b ∈ s, b ≠ 0) →
      tlen + 2 * s.length ≤ dlen →
      JetDb.decompressLoop src dlen s.length pos tlen true = interleave0 s := by
  intro s
  induction s with
  | nil =>
    intro pos tlen _ _ _
    exact decompressLoop_zero src dlen pos tlen true
  | cons b rest ih =>
    intro pos tlen hidx hnz hlen
    have hb : src.get? pos = some b := by
      have := hidx 0 (by simp)
      simpa using this
    have hbne : b ≠ 0 := hnz b (by simp)
    have hlt : tlen < dlen := by
      simp only [List.length_cons] at hlen
      omega
    have hne : ¬ (src.get? pos = some 0) := by rw [hb]; simp [hbne]
    show JetDb.decompressLoop src dlen (rest.length + 1) pos tlen true = interleave0 (b :: rest)
    rw [decompressLoop_succ, if_pos hlt, if_neg hne, getD_of_get_eq hb, if_pos rfl]
    show b :: 0 :: JetDb.decompressLoop src dlen rest.length (pos + 1) (tlen + 2) true =
      b :: 0 :: interleave0 rest
    congr 1
    congr 1
    apply ih (pos + 1) (tlen + 2)
    · intro i hi
      have := hidx (i + 1) (by simpa using Nat.succ_lt_succ hi)
      simpa [Nat.add_assoc, Nat.add_comm 1 i] using this
    · intro x hx
      exact hnz x (by simp [hx])
    · simp only [List.length_cons] at hlen
      omega

/-- Claim C5 (confirmed): for a string of nonzero ASCII bytes of length at
most 65535, the JET4 text path on 0xFF 0xFE followed by the bytes -
decompression with the flag on and no toggles, then UTF-16LE reading -
returns exactly those code units. -/
theorem c5_text_roundtrip (cfg : DatabaseConfig) (s : List Nat)
    (hv : cfg.version = Version.JETDB4)
    (hs : ∀ b ∈ s, 0 < b ∧ b < 128) (_hlen : s.length ≤ 65535) :
    JetDb.parseText cfg (0xff :: 0xfe :: s) = s := by
  have hv3 : ¬ cfg.version = Version.JETDB3 := by rw [hv]; intro hh; cases hh
  unfold JetDb.parseText
  rw [if_neg hv3, if_pos (by constructor <;> rfl)]
  show JetDb.utf16le (JetDb.decompressUnicode s s.length (s.length * 2)) = s
  unfold JetDb.decompressUnicode
  have hloop := decompressLoop_ascii s (s.length * 2) s 0 0
    (fun i hi => by simp [List.get?_eq_get hi])
    (fun b hb => (hs b hb).1.ne.symm)
    (by omega)
  rw [hloop, List.take_of_length_le (by rw [interleave0_length]; omega)]
  exact utf16le_interleave0 s

/-- Witness for c5_text_roundtrip: the bytes of "abc". -/
theorem c5_text_roundtrip_witness :
    JetDb.parseText cfg4 [0xff, 0xfe, 97, 98, 99] = [97, 98, 99] := by
  exact c5_text_roundtrip cfg4 [97, 98, 99] (by decide) (by decide) (by decide)

/-- Claim C2 (confirmed): for a data page (leading byte 0x01) every slot i
below numRows decodes as offset = raw & 0x1fff, deleted iff raw & 0x4000 is
nonzero, lookup iff raw & 0x8000 is nonzero, and next = pageSize at i = 0
and previous raw & 0x1fff otherwise; deleted slots are dropped before row
decoding and the surviving slots are decoded from their unchanged records,
so skipping them does not alter how the rest is decoded. -/
theorem c2_row_slots (cfg : DatabaseConfig) (buffer : List Nat) (offs : List RowOffset)
    (h : JetDb.parseOffsets cfg buffer = some offs) :
    offs.length = JetDb.dataPageNumRows cfg buffer ∧
    (∀ i (hi : i < offs.length),
      (offs.get ⟨i, hi⟩).offset = JetDb.rawSlotWord cfg buffer i &&& 0x1fff ∧
      ((offs.get ⟨i, hi⟩).delFlag = true ↔ JetDb.rawSlotWord cfg buffer i &&& 0x4000 ≠ 0) ∧
      (offs.get ⟨i, hi⟩).lookupFlag = JetDb.rawSlotWord cfg buffer i &&& 0x8000 ∧
      ((offs.get ⟨i, hi⟩).lookupFlag ≠ 0 ↔ JetDb.rawSlotWord cfg buffer i &&& 0x8000 ≠ 0) ∧
      (offs.get ⟨i, hi⟩).next =
        (if i = 0 then cfg.pageSize else JetDb.rawSlotWord cfg buffer (i - 1) &&& 0x1fff)) ∧
    (∀ (reader : PageReader) (schema : Tdef),
      JetDb.readRowsForPage cfg reader buffer schema =
        JetDb.decodeRows cfg reader buffer schema (offs.filter (fun o => !o.delFlag)) 0) := by
  have h0 := h
  unfold JetDb.parseOffsets at h
  by_cases hpc : buffer.getD 0 0 = 1
  · rw [if_pos hpc] at h
    injection h with h
    subst h
    refine ⟨by simp, ?_, ?_⟩
    · intro i hi
      simp only [List.get_eq_getElem, List.getElem_map, List.getElem_range]
      simp
    · intro reader schema
      unfold JetDb.readRowsForPage
      rw [h0]
  · rw [if_neg hpc] at h
    exact absurd h (by simp)

/-- Witness for c2_row_slots on pageW: slot count, the equations of slot 1,
and the filtered decode with the deleted slot 0 removed. -/
theorem c2_row_slots_witness :
    offsW.length = JetDb.dataPageNumRows cfg4 pageW ∧
    (offsW.get ⟨1, by decide⟩).offset = JetDb.rawSlotWord cfg4 pageW 1 &&& 0x1fff ∧
    (offsW.get ⟨1, by decide⟩).next = JetDb.rawSlotWord cfg4 pageW 0 &&& 0x1fff ∧
    JetDb.readRowsForPage cfg4 rdr0 pageW testSchema =
      JetDb.decodeRows cfg4 rdr0 pageW testSchema
        [{ lookupFlag := 0, delFlag := false, offset := 16, next := 30 }] 0 := by
  have h := c2_row_slots cfg4 pageW offsW (by decide)
  refine ⟨h.1, (h.2.1 1 (by decide)).1, ?_, ?_⟩
  · have hn := (h.2.1 1 (by decide)).2.2.2.2
    simpa using hn
  · have h3 := h.2.2 rdr0 testSchema
    rw [show (offsW.filter (fun o => !o.delFlag)) =
      [{ lookupFlag := 0, delFlag := false, offset := 16, next := 30 }] from by decide] at h3
    exact h3

/-- List.getD at an in-range index with any default is the element. -/
lemma getD_eq_get {l : List Nat} {i : Nat} (h : i < l.length) : l.getD i 0 = l.get ⟨i, h⟩ := by
  simp [List.getD_eq_getElem?_getD, List.getElem?_eq_getElem h]

/-- Claim C3 (confirmed): for a column of variable layout (bitmask bit 0
clear) the slice starts at offset + varOffsets[offsetV] and spans to
varOffsets[offsetV + 1] when that index exists, otherwise its length is 0;
and with length 0 the value is null when the null bit is 0 and the empty
string otherwise. -/
theorem c3_variable_columns (cfg : DatabaseConfig) (reader : PageReader) (buffer : List Nat)
    (offset : RowOffset) (varLenSize : Nat) (varOffsets nullMask : List Nat)
    (column : TdefColumn) (name : JStr)
    (hbm : column.bitmask &&& 0x01 = 0)
    (hvo : column.offsetV < varOffsets.length)
    (hnm : column.number < nullMask.length) :
    (JetDb.columnStartLen offset varLenSize varOffsets column).1 =
      offset.offset + varOffsets.get ⟨column.offsetV, hvo⟩ ∧
    (∀ h2 : column.offsetV + 1 < varOffsets.length,
      (JetDb.columnStartLen offset varLenSize varOffsets column).2 =
        (varOffsets.get ⟨column.offsetV + 1, h2⟩ : Int) -
          (varOffsets.get ⟨column.offsetV, hvo⟩ : Int)) ∧
    (¬ column.offsetV + 1 < varOffsets.length →
      (JetDb.columnStartLen offset varLenSize varOffsets column).2 = 0) ∧
    ((JetDb.columnStartLen offset varLenSize varOffsets column).2 = 0 →
      Except.map (fun d => d.value)
        (JetDb.decodeColumnData cfg reader buffer offset varLenSize varOffsets nullMask
          column name) =
      .ok (if nullMask.get ⟨column.number, hnm⟩ = 0 then ColumnValue.null else .str [])) := by
  have hcond : ¬ (column.bitmask &&& 0x01 = 1) := by rw [hbm]; decide
  have hbit : JetDb.nullBitClear nullMask column.number =
      decide (nullMask.get ⟨column.number, hnm⟩ = 0) := by
    unfold JetDb.nullBitClear
    rw [List.get?_eq_get hnm]
    rfl
  refine ⟨?_, ?_, ?_, ?_⟩
  · unfold JetDb.columnStartLen
    rw [if_neg hcond]
    simp [List.getD_eq_getElem?_getD, List.getElem?_eq_getElem hvo]
  · intro h2
    unfold JetDb.columnStartLen
    rw [if_neg hcond]
    simp [h2, List.getD_eq_getElem?_getD, List.getElem?_eq_getElem hvo,
      List.getElem?_eq_getElem h2]
  · intro h2
    unfold JetDb.columnStartLen
    rw [if_neg hcond]
    simp [h2]
  · intro hz
    unfold JetDb.decodeColumnData
    rw [if_neg (by rw [hz]; decide)]
    by_cases hb : nullMask.get ⟨column.number, hnm⟩ = 0 <;>
      simp [hbit, hb, Except.map]

/-- Witness for c3_variable_columns: a variable column with table [3, 9]
decodes start 16 + 3 and length 9 - 3; and with the single-entry table [3]
the length is 0 and the null bit 0 gives a null value. -/
theorem c3_variable_columns_witness :
    (JetDb.columnStartLen { lookupFlag := 0, delFlag := false, offset := 16, next := 30 } 2
        [3, 9] { type := 10, number := 0, offsetF := 0, offsetV := 0, length := 0, bitmask := 0 }).1 =
      16 + 3 ∧
    (JetDb.columnStartLen { lookupFlag := 0, delFlag := false, offset := 16, next := 30 } 2
        [3, 9] { type := 10, number := 0, offsetF := 0, offsetV := 0, length := 0, bitmask := 0 }).2 =
      (9 : Int) - 3 ∧
    Except.map (fun d => d.value)
      (JetDb.decodeColumnData cfg4 rdr0 [] { lookupFlag := 0, delFlag := false, offset := 16, next := 30 }
        2 [3] [0] { type := 10, number := 0, offsetF := 0, offsetV := 0, length := 0, bitmask := 0 }
        (jsStr "B")) = .ok ColumnValue.null := by
  have h1 := c3_variable_columns cfg4 rdr0 [] { lookupFlag := 0, delFlag := false, offset := 16, next := 30 }
    2 [3, 9] [0] { type := 10, number := 0, offsetF := 0, offsetV := 0, length := 0, bitmask := 0 }
    (jsStr "B") (by decide) (by decide) (by decide)
  have h2 := c3_variable_columns cfg4 rdr0 [] { lookupFlag := 0, delFlag := false, offset := 16, next := 30 }
    2 [3] [0] { type := 10, number := 0, offsetF := 0, offsetV := 0, length := 0, bitmask := 0 }
    (jsStr "B") (by decide) (by decide) (by decide)
  refine ⟨?_, ?_, ?_⟩
  · have := h1.1
    simpa using this
  · have := h1.2.1 (by decide)
    simpa using this
  · have := h2.2.2.2 (by decide)
    simpa using this

/-- A successful decodeColumns decodes each listed column independently:
entry j of the result is the decode of pair j. -/
lemma decodeColumns_ok_get (cfg : DatabaseConfig) (reader : PageReader) (buffer : List Nat)
    (offset : RowOffset) (varLenSize : Nat) (varOffsets nullMask : List Nat) :
    ∀ (ps : List (TdefColumn × JStr)) (ds : List ColumnData),
      JetDb.decodeColumns cfg reader buffer offset varLenSize varOffsets nullMask ps = .ok ds →
      ∀ j cn, ps.get? j = some cn →
        ∃ d, ds.get? j = some d ∧
          JetDb.decodeColumnData cfg reader buffer offset varLenSize varOffsets nullMask
            cn.1 cn.2 = .ok d := by
  intro ps
  induction ps with
  | nil =>
    intro ds h j cn hj
    simp at hj
  | cons head tail ih =>
    intro ds h j cn hj
    obtain ⟨hc, hn⟩ := head
    simp only [JetDb.decodeColumns] at h
    cases hd : JetDb.decodeColumnData cfg reader buffer offset varLenSize varOffsets nullMask hc hn with
    | error e =>
      rw [hd] at h
      simp [Bind.bind, Except.bind] at h
    | ok d0 =>
      rw [hd] at h
      cases hrest : JetDb.decodeColumns cfg reader buffer offset varLenSize varOffsets nullMask tail with
      | error e =>
        rw [hrest] at h
        simp [Bind.bind, Except.bind] at h
      | ok ds2 =>
        rw [hrest] at h
        simp only [Bind.bind, Except.bind, Except.ok.injEq] at h
        subst h
        cases j with
        | zero =>
          simp only [List.get?] at hj
          injection hj with hj
          subst hj
          exact ⟨d0, rfl, hd⟩
        | succ j2 =>
          exact ih ds2 hrest j2 cn hj

/-- Claim C7 (confirmed): for a column type outside {1, 2, 3, 4, 7, 8, 10,
12} value decoding never errors and returns the sentinel string, and row
decoding treats each column independently, so the remaining columns of the
row are still decoded normally. -/
theorem c7_unknown_type_sentinel (cfg : DatabaseConfig) (reader : PageReader) (buffer : List Nat)
    (column : TdefColumn) (start length : Nat)
    (h : column.type ∉ JetDb.decodedTypes) :
    JetDb.parseColumn cfg reader buffer column start length =
      .ok (.str (jsStr "[unknown type]")) ∧
    (∀ (offset : RowOffset) (varLenSize : Nat) (varOffsets nullMask : List Nat)
        (ps : List (TdefColumn × JStr)) (ds : List ColumnData),
      JetDb.decodeColumns cfg reader buffer offset varLenSize varOffsets nullMask ps = .ok ds →
      ∀ j cn, ps.get? j = some cn →
        ∃ d, ds.get? j = some d ∧
          JetDb.decodeColumnData cfg reader buffer offset varLenSize varOffsets nullMask
            cn.1 cn.2 = .ok d) := by
  constructor
  · simp only [JetDb.decodedTypes, List.mem_cons, List.not_mem_nil, or_false, not_or] at h
    obtain ⟨h1, h2, h3, h4, h7, h8, h10, h12⟩ := h
    unfold JetDb.parseColumn
    rw [if_neg h1, if_neg h2, if_neg h3, if_neg h4, if_neg h7, if_neg h8, if_neg h10, if_neg h12]
  · intro offset varLenSize varOffsets nullMask ps ds hps j cn hj
    exact decodeColumns_ok_get cfg reader buffer offset varLenSize varOffsets nullMask
      ps ds hps j cn hj

/-- Witness for c7_unknown_type_sentinel: the money column yields the
sentinel value without error. -/
theorem c7_unknown_type_sentinel_witness :
    JetDb.parseColumn cfg4 rdr0 [9, 9, 9, 9, 9, 9, 9, 9] col5 0 8 =
      .ok (.str (jsStr "[unknown type]")) := by
  exact (c7_unknown_type_sentinel cfg4 rdr0 [9, 9, 9, 9, 9, 9, 9, 9] col5 0 8 (by decide)).1

/-- Claim C6 (confirmed): a memo column (type 12) with positive slice length
parses memoLen from the u16 at +0 plus the u8 at +2, memoMask from the u8 at
+3, and from the u32 at +4 memoPage = value >> 2 ^ 8 (the JS signed shift)
and memoRow = value & 0xFF; mask 0x80 decodes the inline text at
[start + 12, start + 12 + memoLen), mask 0x40 decodes the bytes
[slot.offset, slot.next) of slot memoRow of the row-offset table of page
memoPage, and mask 0x00 yields the sentinel. -/
theorem c6_memo_decoding (cfg : DatabaseConfig) (reader : PageReader) (buffer : List Nat)
    (column : TdefColumn) (start length : Nat)
    (ht : column.type = 12) (_hl : 0 < length) :
    (readU8 buffer (start + 3) = 0x80 →
      JetDb.parseColumn cfg reader buffer column start length =
        .ok (.str (JetDb.parseText cfg ((buffer.drop (start + 12)).take
          (readU16LE buffer start + readU8 buffer (start + 2)))))) ∧
    (readU8 buffer (start + 3) = 0x40 →
      ∀ offs slot,
        JetDb.parseOffsets cfg
            (reader cfg.pageSize (jsShr32 (readU32LE buffer (start + 4)) 8)) = some offs →
        offs.get? (readU32LE buffer (start + 4) &&& 0xff) = some slot →
        JetDb.parseColumn cfg reader buffer column start length =
          .ok (.str (JetDb.parseText cfg
            (((reader cfg.pageSize (jsShr32 (readU32LE buffer (start + 4)) 8)).drop
              slot.offset).take (slot.next - slot.offset))))) ∧
    (readU8 buffer (start + 3) = 0x00 →
      JetDb.parseColumn cfg reader buffer column start length =
        .ok (.str (jsStr "[unknown type]"))) := by
  refine ⟨fun hm => ?_, fun hm => ?_, fun hm => ?_⟩
  · unfold JetDb.parseColumn
    rw [ht]
    simp [hm]
  · intro offs slot hoffs hslot
    unfold JetDb.parseColumn
    rw [ht]
    simp only [hm]
    norm_num
    rw [hoffs]
    have hslot2 : offs[readU32LE buffer (start + 4) &&& 255]? = some slot := by
      rw [← List.get?_eq_getElem?]
      exact hslot
    simp [hslot2]
  · unfold JetDb.parseColumn
    rw [ht]
    simp [hm]

/-- Witness for c6_memo_decoding: the out-of-line path fetches page 5, takes
slot 0 and decodes its bytes. -/
theorem c6_memo_decoding_witness :
    JetDb.parseColumn cfg4 rdrW memoColBuf colMemo 0 1 = .ok (.str [104]) := by
  have h := c6_memo_decoding cfg4 rdrW memoColBuf colMemo 0 1 (by decide) (by decide)
  have h40 := h.2.1 (by decide)
    [{ lookupFlag := 0, delFlag := false, offset := 18, next := 4096 }]
    { lookupFlag := 0, delFlag := false, offset := 18, next := 4096 }
    (by decide) (by decide)
  exact h40.trans (by decide)

/-- parseColumn never returns the null value: every branch of the type
switch produces a number, bit pattern, bigint or string. -/
lemma parseColumn_ok_ne_null (cfg : DatabaseConfig) (reader : PageReader) (buffer : List Nat)
    (column : TdefColumn) (start length : Nat) (v : ColumnValue)
    (h : JetDb.parseColumn cfg reader buffer column start length = .ok v) :
    v ≠ ColumnValue.null := by
  unfold JetDb.parseColumn at h
  by_cases h1 : column.type = 1
  · rw [if_pos h1] at h; injection h with h; subst h; simp
  rw [if_neg h1] at h
  by_cases h2 : column.type = 2
  · rw [if_pos h2] at h; injection h with h; subst h; simp
  rw [if_neg h2] at h
  by_cases h3 : column.type = 3
  · rw [if_pos h3] at h; injection h with h; subst h; simp
  rw [if_neg h3] at h
  by_cases h4 : column.type = 4
  · rw [if_pos h4] at h; injection h with h; subst h; simp
  rw [if_neg h4] at h
  by_cases h7 : column.type = 7
  · rw [if_pos h7] at h; injection h with h; subst h; simp
  rw [if_neg h7] at h
  by_cases h8 : column.type = 8
  · rw [if_pos h8] at h; injection h with h; subst h; simp
  rw [if_neg h8] at h
  by_cases h10 : column.type = 10
  · rw [if_pos h10] at h; injection h with h; subst h; simp
  rw [if_neg h10] at h
  by_cases h12 : column.type = 12
  · rw [if_pos h12] at h
    by_cases hm80 : readU8 buffer (start + 3) = 0x80
    · rw [if_pos hm80] at h; injection h with h; subst h; simp
    rw [if_neg hm80] at h
    by_cases hm40 : readU8 buffer (start + 3) = 0x40
    · rw [if_pos hm40] at h
      cases hoffs : JetDb.parseOffsets cfg
          (reader cfg.pageSize (jsShr32 (readU32LE buffer (start + 4)) 8)) with
      | none =>
        simp only [hoffs] at h
        exact Except.noConfusion h
      | some offsets =>
        simp only [hoffs] at h
        cases hslot : offsets.get? (readU32LE buffer (start + 4) &&& 0xff) with
        | none =>
          simp only [hslot] at h
          exact Except.noConfusion h
        | some slot =>
          simp only [hslot] at h
          injection h with h; subst h; simp
    rw [if_neg hm40] at h
    by_cases hm0 : readU8 buffer (start + 3) = 0x00
    · rw [if_pos hm0] at h; injection h with h; subst h; simp
    · rw [if_neg hm0] at h; injection h with h; subst h; simp
  · rw [if_neg h12] at h; injection h with h; subst h; simp

/-- Claim C8 (amended): the isNull flag is true exactly when the null-mask
bit of the column number is 0; the value is null only if that bit is 0; and
when the computed slice length is not positive the value is null exactly
when the bit is 0.  (The bit being 0 does not force a null value: a column
with positive computed length is decoded by parseColumn, which never
returns null.) -/
theorem c8_null_semantics (cfg : DatabaseConfig) (reader : PageReader) (buffer : List Nat)
    (offset : RowOffset) (varLenSize : Nat) (varOffsets nullMask : List Nat)
    (column : TdefColumn) (name : JStr) (d : ColumnData)
    (h : JetDb.decodeColumnData cfg reader buffer offset varLenSize varOffsets nullMask
      column name = .ok d) :
    (d.isNull = true ↔ (nullMask.get? column.number).getD 1 = 0) ∧
    (d.value = ColumnValue.null → (nullMask.get? column.number).getD 1 = 0) ∧
    (¬ (JetDb.columnStartLen offset varLenSize varOffsets column).2 > 0 →
      (d.value = ColumnValue.null ↔ (nullMask.get? column.number).getD 1 = 0)) := by
  have hflag : ∀ dd : ColumnData, dd.isNull = JetDb.nullBitClear nullMask column.number →
      (dd.isNull = true ↔ (nullMask.get? column.number).getD 1 = 0) := by
    intro dd hdd
    rw [hdd]
    unfold JetDb.nullBitClear
    exact decide_eq_true_iff
  unfold JetDb.decodeColumnData at h
  by_cases hsl : (JetDb.columnStartLen offset varLenSize varOffsets column).2 > 0
  · rw [if_pos hsl] at h
    cases hv : JetDb.parseColumn cfg reader buffer column
        (JetDb.columnStartLen offset varLenSize varOffsets column).1
        (JetDb.columnStartLen offset varLenSize varOffsets column).2.toNat with
    | error e =>
      rw [hv] at h
      simp [Bind.bind, Except.bind] at h
    | ok v =>
      rw [hv] at h
      simp only [Bind.bind, Except.bind, Except.ok.injEq] at h
      subst h
      refine ⟨hflag _ rfl, ?_, fun hc => absurd hsl hc⟩
      intro hvnull
      exact absurd hvnull (parseColumn_ok_ne_null cfg reader buffer column _ _ v hv)
  · rw [if_neg hsl] at h
    simp only [Except.ok.injEq] at h
    subst h
    have hval : (if JetDb.nullBitClear nullMask column.number then ColumnValue.null
        else ColumnValue.str []) = ColumnValue.null ↔
        (nullMask.get? column.number).getD 1 = 0 := by
      by_cases hb : (nullMask.get? column.number).getD 1 = 0
      · have hbt : JetDb.nullBitClear nullMask column.number = true := by
          unfold JetDb.nullBitClear
          exact decide_eq_true hb
        rw [hbt, if_pos rfl]
        exact iff_of_true rfl hb
      · have hbf : JetDb.nullBitClear nullMask column.number = false := by
          unfold JetDb.nullBitClear
          exact decide_eq_false hb
        rw [hbf, if_neg (by simp)]
        exact iff_of_false (by simp) hb
    exact ⟨hflag _ rfl, fun hvnull => hval.mp hvnull, fun _ => hval⟩

/-- Counterexample to claim C8 as stated: a fixed u16 column whose null bit
is 0 still decodes to the number 1799, so a 0 bit does not give a null
value: the iff of the claim fails in that direction. -/
theorem c8_counterexample :
    JetDb.decodeColumnData cfg4 rdr0 (List.replicate 30 7)
      { lookupFlag := 0, delFlag := false, offset := 0, next := 20 } 2 [] [0]
      { type := 3, number := 0, offsetF := 0, offsetV := 0, length := 2, bitmask := 1 }
      (jsStr "A") =
      .ok { position := 0, rawValue := [7, 7], type := 3, name := jsStr "A",
            value := .num 1799, isNull := true } ∧
    ColumnValue.num 1799 ≠ ColumnValue.null ∧
    ((([0] : List Nat).get? 0).getD 1 = 0) := by
  exact ⟨by decide, by decide, by decide⟩

/-- Witness for c8_null_semantics at the concrete fixed column with null
bit 0: the isNull flag agrees with the bit and a null value would imply
bit 0. -/
theorem c8_null_semantics_witness :
    (({ position := 0, rawValue := [7, 7], type := 3, name := jsStr "A",
        value := ColumnValue.num 1799, isNull := true } : ColumnData).isNull = true ↔
      ((([0] : List Nat).get? 0).getD 1 = 0)) ∧
    (({ position := 0, rawValue := [7, 7], type := 3, name := jsStr "A",
        value := ColumnValue.num 1799, isNull := true } : ColumnData).value =
          ColumnValue.null →
      ((([0] : List Nat).get? 0).getD 1 = 0)) := by
  have h := c8_null_semantics cfg4 rdr0 (List.replicate 30 7)
    { lookupFlag := 0, delFlag := false, offset := 0, next := 20 } 2 [] [0]
    { type := 3, number := 0, offsetF := 0, offsetV := 0, length := 2, bitmask := 1 }
    (jsStr "A")
    { position := 0, rawValue := [7, 7], type := 3, name := jsStr "A",
      value := ColumnValue.num 1799, isNull := true }
    (by decide)
  exact ⟨h.1, h.2.1⟩

/-- Claim C9 (amended): when no catalog user row has a Name column value
equal to the requested table name, findIndex yields -1 and both columns and
rows fail by reading a property of the undefined schema[-1] (a JS
TypeError), not with a structured UnknownTable error. -/
theorem c9_unknown_table (st : JetDb.State) (reader : PageReader) (table : JStr)
    (h : ∀ r ∈ st.userTables,
      ((r.columns.find? (fun c => c.name = jsStr "Name")).map (fun c => c.value)) ≠
        some (.str table)) :
    JetDb.columns st table = .error .undefinedProperty ∧
    JetDb.rows st reader table = .error .undefinedProperty := by
  have hidx : JetDb.findTableIndex st table = none := by
    unfold JetDb.findTableIndex
    refine List.findIdx?_eq_none_iff.mpr ?_
    intro r hr
    exact decide_eq_false (h r hr)
  constructor
  · unfold JetDb.columns
    rw [hidx]
  · unfold JetDb.rows
    rw [hidx]

/-- Witness for c9_unknown_table: requesting the absent table U fails on
both operations with the undefined-property error. -/
theorem c9_unknown_table_witness :
    JetDb.columns stW (jsStr "U") = .error .undefinedProperty ∧
    JetDb.rows stW rdr0 (jsStr "U") = .error .undefinedProperty := by
  exact c9_unknown_table stW rdr0 (jsStr "U") (by decide)

/-- Counterexample to claim C9 as stated: with no matching catalog row the
operations fail with the undefined-property TypeError, which is not an
UnknownTable error carrying the name; the source never constructs
UnknownTable. -/
theorem c9_counterexample :
    JetDb.columns stW (jsStr "U") = .error .undefinedProperty ∧
    JetDb.rows stW rdr0 (jsStr "U") = .error .undefinedProperty ∧
    (Except.error JetErr.undefinedProperty : Except JetErr (List JStr)) ≠
      .error (.unknownTable (jsStr "U")) ∧
    (Except.error JetErr.undefinedProperty : Except JetErr (List Row)) ≠
      .error (.unknownTable (jsStr "U")) := by
  exact ⟨by decide, by decide, by decide, by decide⟩
